import Mathlib

/-
Verification of the ts-builds command/chain runner (cli.ts):
configuration resolution (loadConfig), the builtin command registry
(getBuiltinCommands), the recursive chain executor (runChain) and the
process runner (runShellCommand), shallowly embedded in Lean.

JS objects used as string-keyed records are embedded as association lists
with first-match lookup (lookupA) and overwrite-or-append update (setA),
matching JS property read and assignment semantics.  Child processes are
embedded through an oracle assigning each successive spawn an outcome
(normal close with an optional exit code, or a spawn error), and the
executor threads an explicit state holding the visited set (the mutable
JS Set passed by reference through recursive calls), the ordered list of
spawned commands, and the diagnostics written with console.error.
-/

namespace TsBuilds

/-- Association-list lookup, first match wins: embeds reading a property
of a JS object whose keys are unique. -/
def lookupA {β : Type} : List (String × β) → String → Option β
  | [], _ => none
  | (k, v) :: rest, key => if k = key then some v else lookupA rest key

/-- Association-list update: embeds a JS property assignment.  An existing
key is overwritten in place, otherwise the entry is appended, preserving
the object's insertion order of keys. -/
def setA {β : Type} (m : List (String × β)) (k : String) (v : β) : List (String × β) :=
  if (lookupA m k).isSome then
    m.map (fun p => if p.1 = k then (k, v) else p)
  else
    m ++ [(k, v)]

/-- Embeds interface CommandDef: one directly executable shell command with
an optional working directory (cwd). -/
structure CommandDef where
  run : String
  cwd : Option String
deriving DecidableEq, Repr

/-- A user command entry is either a bare string or a CommandDef object
(the type of values of TsBuildsConfig.commands in the source). -/
inductive CommandValue
  | bare (s : String)
  | full (d : CommandDef)
deriving DecidableEq, Repr

/-- Embeds interface TsBuildsConfig: the parsed user configuration file.
A field is none when absent from the JSON (or null). -/
structure TsBuildsConfig where
  srcDir : Option String
  testDir : Option String
  commands : Option (List (String × CommandValue))
  chains : Option (List (String × List String))
  validateChain : Option (List String)
deriving DecidableEq, Repr

/-- The empty user configuration, as used when the file is missing or
fails to parse. -/
def emptyUserConfig : TsBuildsConfig :=
  { srcDir := none, testDir := none, commands := none, chains := none, validateChain := none }

/-- Embeds interface ResolvedConfig. -/
structure ResolvedConfig where
  srcDir : String
  testDir : String
  commands : List (String × CommandDef)
  chains : List (String × List String)
deriving DecidableEq, Repr

/-- Embeds const defaultChains from the source. -/
def defaultChains : List (String × List String) :=
  [("validate", ["format", "lint", "typecheck", "test", "build"])]

/-- Normalization of one commands entry inside loadConfig: a bare string
cmd becomes a CommandDef with run cmd, an object passes through. -/
def normalizeCommand : CommandValue → CommandDef
  | .bare s => { run := s, cwd := none }
  | .full d => d

/-- Embeds function loadConfig.  The filesystem read and JSON parse are
abstracted into the parameter: none stands for a missing config file or
one whose contents fail to parse (the catch branch), some uc for a
successfully parsed TsBuildsConfig. -/
def loadConfig (parsed : Option TsBuildsConfig) : ResolvedConfig :=
  let userConfig := parsed.getD emptyUserConfig
  let commands : List (String × CommandDef) :=
    match userConfig.commands with
    | none => []
    | some entries => entries.foldl (fun m p => setA m p.1 (normalizeCommand p.2)) []
  let chains0 := defaultChains
  let chains1 :=
    match userConfig.validateChain with
    | some vc => setA chains0 "validate" vc
    | none => chains0
  let chains2 :=
    match userConfig.chains with
    | some cs => cs.foldl (fun m p => setA m p.1 p.2) chains1
    | none => chains1
  { srcDir := userConfig.srcDir.getD "./src"
    testDir := userConfig.testDir.getD "./test"
    commands := commands
    chains := chains2 }

/-- Embeds the object literal defaultConfig written by createConfig. -/
def defaultConfig : TsBuildsConfig :=
  { srcDir := some "./src"
    testDir := none
    commands := none
    chains := none
    validateChain := some ["format", "lint", "typecheck", "test", "build"] }

/-- Embeds function getBuiltinCommands: the literal record of builtin
command definitions, parameterized by the resolved srcDir. -/
def getBuiltinCommands (config : ResolvedConfig) : List (String × CommandDef) :=
  [ ("format", { run := "prettier --write .", cwd := none })
  , ("format:check", { run := "prettier --check .", cwd := none })
  , ("lint", { run := "eslint --fix " ++ config.srcDir, cwd := none })
  , ("lint:check", { run := "eslint " ++ config.srcDir, cwd := none })
  , ("typecheck", { run := "tsc --noEmit", cwd := none })
  , ("ts-types", { run := "tsc --noEmit", cwd := none })
  , ("test", { run := "vitest run", cwd := none })
  , ("test:watch", { run := "vitest", cwd := none })
  , ("test:coverage", { run := "vitest run --coverage", cwd := none })
  , ("test:ui", { run := "vitest --ui", cwd := none })
  , ("build", { run := "rimraf dist && cross-env NODE_ENV=production tsdown", cwd := none })
  , ("build:watch", { run := "tsdown --watch", cwd := none })
  , ("dev", { run := "tsdown --watch", cwd := none })
  , ("compile", { run := "tsc", cwd := none }) ]

/-- The names for which getBuiltinCommands defines an entry, in source
order.  Note the source also defines ts-types (an alias of typecheck). -/
def builtinNames : List String :=
  [ "format", "format:check", "lint", "lint:check", "typecheck", "ts-types"
  , "test", "test:watch", "test:coverage", "test:ui"
  , "build", "build:watch", "dev", "compile" ]

/-- Outcome of one child-process spawn, as observed by runShellCommand:
either the close event fires with an exit code (null when the child was
killed by a signal), or the error event fires because the child could not
be spawned at all. -/
inductive SpawnOutcome
  | closed (code : Option Nat)
  | failed (msg : String)
deriving DecidableEq, Repr

/-- Embeds function runShellCommand: the integer the returned promise
resolves to.  The shell command string and cwd option are routed to spawn
and do not influence this value; the child's behaviour is the outcome.
On close the promise resolves to the exit code, with null mapped to 1;
on a spawn error it logs and resolves to 1 (it never rejects). -/
def runShellCommand (outcome : SpawnOutcome) : Nat :=
  match outcome with
  | .closed code => code.getD 1
  | .failed _ => 1

/-- The diagnostics runChain writes with console.error, by kind. -/
inductive RunError
  | circularChain (name : String)
  | unknownChain (name : String)
  | unknownStep (name : String)
deriving DecidableEq, Repr

/-- Execution state threaded through runChain: the visited Set (a single
object mutated in place and shared by all recursive calls of one
top-level invocation), the ordered trace of commands handed to
runShellCommand, and the error diagnostics emitted so far. -/
structure ExecState where
  visited : List String
  executed : List CommandDef
  errors : List RunError
deriving DecidableEq, Repr

/-- The state at the start of a top-level invocation (visited defaults to
a fresh empty Set). -/
def ExecState.start : ExecState := { visited := [], executed := [], errors := [] }

/-- Record one console.error diagnostic. -/
def ExecState.addError (st : ExecState) (e : RunError) : ExecState :=
  { st with errors := st.errors ++ [e] }

/-- Record one child-process spawn. -/
def ExecState.spawn (st : ExecState) (cmd : CommandDef) : ExecState :=
  { st with executed := st.executed ++ [cmd] }

/-- Embeds the step resolution expression config.commands[step] ??
builtins[step] used inside runChain's loop. -/
def resolveCommand (config : ResolvedConfig) (step : String) : Option CommandDef :=
  match lookupA config.commands step with
  | some cmd => some cmd
  | none => lookupA (getBuiltinCommands config) step

/-- Embeds async function runChain together with its inner for-loop over
the chain's steps, as one structurally recursive function.  A Sum.inl
input is a runChain call on a chain name; a Sum.inr input is the loop
running a list of remaining steps.  The Nat argument is fuel, an artifact
of the embedding: the JS recursion is finite because the shared visited
set grows on every nested chain entry, and every theorem below either
supplies ample fuel or is conditional on the run having produced a
result; fuel exhaustion yields none.

Per step, the source checks config.chains first (a present key is
treated as a nested chain and recursed into), then config.commands ??
builtins; an unresolved name logs an unknown-step error and returns 1.
A non-zero code from a nested chain or from a spawned command is
returned immediately (fail-fast); an empty remaining list returns 0. -/
def runF (oracle : Nat → SpawnOutcome) (config : ResolvedConfig) :
    Nat → Sum String (List String) → ExecState → Option (Nat × ExecState)
  | 0, _, _ => none
  | fuel + 1, Sum.inl chainName, st =>
    if chainName ∈ st.visited then
      some (1, st.addError (.circularChain chainName))
    else
      let st1 := { st with visited := st.visited ++ [chainName] }
      match lookupA config.chains chainName with
      | none => some (1, st1.addError (.unknownChain chainName))
      | some chain => runF oracle config fuel (Sum.inr chain) st1
  | _ + 1, Sum.inr [], st => some (0, st)
  | fuel + 1, Sum.inr (step :: rest), st =>
    if (lookupA config.chains step).isSome then
      match runF oracle config fuel (Sum.inl step) st with
      | none => none
      | some (code, st1) =>
        if code ≠ 0 then some (code, st1) else runF oracle config fuel (Sum.inr rest) st1
    else
      match resolveCommand config step with
      | none => some (1, st.addError (.unknownStep step))
      | some cmdDef =>
        let code := runShellCommand (oracle st.executed.length)
        let st1 := st.spawn cmdDef
        if code ≠ 0 then some (code, st1) else runF oracle config fuel (Sum.inr rest) st1

/-- Entry of runChain on a chain name. -/
def runChain (oracle : Nat → SpawnOutcome) (config : ResolvedConfig)
    (fuel : Nat) (chainName : String) (st : ExecState) : Option (Nat × ExecState) :=
  runF oracle config fuel (Sum.inl chainName) st

/-- The loop of runChain over a list of remaining steps. -/
def runSteps (oracle : Nat → SpawnOutcome) (config : ResolvedConfig)
    (fuel : Nat) (steps : List String) (st : ExecState) : Option (Nat × ExecState) :=
  runF oracle config fuel (Sum.inr steps) st

/-- Fuel that is ample for any one invocation: every chain can be entered
at most once before the visited set blocks it, so a run can consume at
most one level per chain entry plus one per step occurrence. -/
def totalFuel (config : ResolvedConfig) : Nat :=
  1 + config.chains.foldl (fun acc p => acc + p.2.length + 2) 0

/-- A top-level invocation runChain(chainName, config): fresh empty
visited set. -/
def runChainTop (oracle : Nat → SpawnOutcome) (config : ResolvedConfig)
    (chainName : String) : Option (Nat × ExecState) :=
  runChain oracle config (totalFuel config) chainName ExecState.start

/-- Modelled from the spec: the chain-to-chain reference graph.  The
children of a chain are those of its steps that are themselves chain
names. -/
def chainChildren (config : ResolvedConfig) (name : String) : List String :=
  ((lookupA config.chains name).getD []).filter (fun s => (lookupA config.chains s).isSome)

/-- Modelled from the spec: bounded reachability in the chain-reference
graph (paths of at most n edges). -/
def reachesChain (config : ResolvedConfig) : Nat → String → String → Bool
  | 0, _, _ => false
  | n + 1, a, b => (chainChildren config a).any (fun x => x = b || reachesChain config n x b)

/-- Modelled from the spec: a configuration has a genuine cycle when some
chain transitively references itself.  A simple cycle has at most as many
edges as there are chains, so bounding path length by the number of
chains is exact. -/
def hasGenuineCycle (config : ResolvedConfig) : Bool :=
  (config.chains.map Prod.fst).any (fun k => reachesChain config config.chains.length k k)

/-- An oracle under which every child closes normally with exit code 0. -/
def oracleOk : Nat → SpawnOutcome := fun _ => SpawnOutcome.closed (some 0)

/-- An oracle under which the second spawned child exits 3 and every
other child exits 0. -/
def oracleThird : Nat → SpawnOutcome :=
  fun n => if n = 1 then SpawnOutcome.closed (some 3) else SpawnOutcome.closed (some 0)

/-- An oracle under which no child can be spawned at all. -/
def oracleFail : Nat → SpawnOutcome := fun _ => SpawnOutcome.failed "spawn ENOENT"

/-- An oracle under which every child closes with exit code 1. -/
def oracleOne : Nat → SpawnOutcome := fun _ => SpawnOutcome.closed (some 1)

/-- A configuration whose chain graph is a tree (no genuine cycle) but
where chain a is referenced twice from chain main. -/
def cfgDup : ResolvedConfig :=
  { srcDir := "./src", testDir := "./test", commands := []
    chains := [("main", ["a", "a"]), ("a", ["format"])] }

/-- A configuration whose chain main has a known first step and an
unknown second step. -/
def cfgUnknown : ResolvedConfig :=
  { srcDir := "./src", testDir := "./test", commands := []
    chains := [("main", ["format", "nope"])] }

/-- The two-chain genuine cycle from the spec: A references B and B
references A. -/
def cfgAB : ResolvedConfig :=
  { srcDir := "./src", testDir := "./test", commands := []
    chains := [("A", ["B"]), ("B", ["A"])] }

/-- A configuration with one three-step chain of builtin commands. -/
def cfgThree : ResolvedConfig :=
  { srcDir := "./src", testDir := "./test", commands := []
    chains := [("main", ["format", "lint", "typecheck"])] }

/-- A configuration with a user command named lint, shadowing the builtin
of the same name. -/
def cfgUserLint : ResolvedConfig :=
  { srcDir := "./src", testDir := "./test"
    commands := [("lint", { run := "custom-lint", cwd := none })]
    chains := [] }

/-- Association-list lookup distributes over append. -/
theorem lookupA_append {β : Type} (l1 l2 : List (String × β)) (k : String) :
    lookupA (l1 ++ l2) k =
      match lookupA l1 k with
      | some v => some v
      | none => lookupA l2 k := by
  induction l1 with
  | nil => simp [lookupA]
  | cons p rest ih =>
    obtain ⟨k1, v1⟩ := p
    by_cases h : k1 = k
    · simp [lookupA, h]
    · simp [lookupA, h, ih]

/-- Lookup of an absent key is none. -/
theorem lookupA_eq_none_of_not_mem {β : Type} (m : List (String × β)) (k : String)
    (h : k ∉ m.map Prod.fst) : lookupA m k = none := by
  induction m with
  | nil => simp [lookupA]
  | cons p rest ih =>
    obtain ⟨k1, v1⟩ := p
    simp only [List.map_cons, List.mem_cons] at h
    push_neg at h
    simp [lookupA, Ne.symm h.1, ih h.2]

/-- In-place overwrite of an existing key: looking up that key afterwards
yields the new value. -/
theorem lookupA_map_set_self {β : Type} (m : List (String × β)) (k : String) (v : β)
    (h : (lookupA m k).isSome) :
    lookupA (m.map (fun p => if p.1 = k then (k, v) else p)) k = some v := by
  induction m with
  | nil => simp [lookupA] at h
  | cons p rest ih =>
    obtain ⟨k1, v1⟩ := p
    simp only [List.map_cons]
    by_cases h1 : k1 = k
    · subst h1
      rw [show (if (k1, v1).1 = k1 then (k1, v) else (k1, v1)) = (k1, v) from if_pos rfl]
      simp [lookupA]
    · rw [show (if (k1, v1).1 = k then (k, v) else (k1, v1)) = (k1, v1) from if_neg h1]
      simp only [lookupA] at h ⊢
      rw [if_neg h1] at h ⊢
      exact ih h

/-- In-place overwrite of key k does not affect lookup of a key other
than k. -/
theorem lookupA_map_set_ne {β : Type} (m : List (String × β)) (k kq : String) (v : β)
    (h : kq ≠ k) :
    lookupA (m.map (fun p => if p.1 = k then (k, v) else p)) kq = lookupA m kq := by
  induction m with
  | nil => simp
  | cons p rest ih =>
    obtain ⟨k1, v1⟩ := p
    simp only [List.map_cons]
    by_cases h1 : k1 = k
    · subst h1
      rw [show (if (k1, v1).1 = k1 then (k1, v) else (k1, v1)) = (k1, v) from if_pos rfl]
      simp only [lookupA]
      rw [if_neg (Ne.symm h), if_neg (Ne.symm h)]
      exact ih
    · rw [show (if (k1, v1).1 = k then (k, v) else (k1, v1)) = (k1, v1) from if_neg h1]
      simp only [lookupA]
      by_cases h2 : k1 = kq
      · rw [if_pos h2, if_pos h2]
      · rw [if_neg h2, if_neg h2]
        exact ih

/-- setA makes the assigned key map to the assigned value. -/
theorem lookupA_setA_self {β : Type} (m : List (String × β)) (k : String) (v : β) :
    lookupA (setA m k v) k = some v := by
  unfold setA
  by_cases h : (lookupA m k).isSome
  · rw [if_pos h]
    exact lookupA_map_set_self m k v h
  · rw [if_neg h, lookupA_append]
    rw [Option.not_isSome_iff_eq_none] at h
    simp [h, lookupA]

/-- setA leaves every other key untouched. -/
theorem lookupA_setA_ne {β : Type} (m : List (String × β)) (k kq : String) (v : β)
    (h : kq ≠ k) : lookupA (setA m k v) kq = lookupA m kq := by
  unfold setA
  by_cases hs : (lookupA m k).isSome
  · rw [if_pos hs]
    exact lookupA_map_set_ne m k kq v h
  · rw [if_neg hs, lookupA_append]
    cases hq : lookupA m kq with
    | some v1 => simp
    | none => simp [lookupA, Ne.symm h]

/-- Folding a batch of assignments whose keys avoid k leaves lookup of k
unchanged. -/
theorem lookupA_foldl_setA_none {β : Type} (cs : List (String × β)) (k : String) :
    ∀ m0, lookupA cs k = none →
      lookupA (cs.foldl (fun m p => setA m p.1 p.2) m0) k = lookupA m0 k := by
  induction cs with
  | nil => intro m0 _; simp
  | cons p rest ih =>
    intro m0 h
    obtain ⟨k1, v1⟩ := p
    have h1 : ¬(k1 = k) := by intro e; simp [lookupA, e] at h
    have h2 : lookupA rest k = none := by simpa [lookupA, h1] using h
    simp only [List.foldl_cons]
    rw [ih _ h2, lookupA_setA_ne _ _ _ _ (Ne.symm h1)]

/-- Folding a batch of assignments with pairwise distinct keys (as in a
parsed JSON object) installs each of its entries. -/
theorem lookupA_foldl_setA_some {β : Type} (cs : List (String × β)) (k : String) (v : β) :
    ∀ m0, (cs.map Prod.fst).Nodup → lookupA cs k = some v →
      lookupA (cs.foldl (fun m p => setA m p.1 p.2) m0) k = some v := by
  induction cs with
  | nil => intro m0 _ h; simp [lookupA] at h
  | cons p rest ih =>
    intro m0 hnd h
    obtain ⟨k1, v1⟩ := p
    simp only [List.map_cons, List.nodup_cons] at hnd
    obtain ⟨hk1, hnd1⟩ := hnd
    by_cases he : k1 = k
    · subst he
      have hv : v1 = v := by simpa [lookupA] using h
      subst hv
      have hrest : lookupA rest k1 = none := lookupA_eq_none_of_not_mem _ _ hk1
      simp only [List.foldl_cons]
      rw [lookupA_foldl_setA_none _ _ _ hrest, lookupA_setA_self]
    · have h2 : lookupA rest k = some v := by simpa [lookupA, he] using h
      simp only [List.foldl_cons]
      exact ih _ hnd1 h2

/-- Folding assignments never removes a key. -/
theorem isSome_lookupA_foldl_setA {β : Type} (cs : List (String × β)) (k : String) :
    ∀ m0, (lookupA m0 k).isSome →
      (lookupA (cs.foldl (fun m p => setA m p.1 p.2) m0) k).isSome := by
  induction cs with
  | nil => intro m0 h; simpa
  | cons p rest ih =>
    intro m0 h
    obtain ⟨k1, v1⟩ := p
    simp only [List.foldl_cons]
    apply ih
    by_cases he : k1 = k
    · subst he; rw [lookupA_setA_self]; simp
    · rw [lookupA_setA_ne _ _ _ _ (Ne.symm he)]; exact h

/-- A run only ever appends to the visited set and to the execution
trace: the state at entry is a prefix of the state at exit. -/
theorem runF_mono (o : Nat → SpawnOutcome) (c : ResolvedConfig) :
    ∀ (fuel : Nat) (inp : Sum String (List String)) (st : ExecState) (r : Nat × ExecState),
      runF o c fuel inp st = some r →
      st.visited <+: r.2.visited ∧ st.executed <+: r.2.executed := by
  intro fuel
  induction fuel with
  | zero =>
    intro inp st r h
    simp [runF] at h
  | succ f ih =>
    intro inp st r h
    cases inp with
    | inl name =>
      simp only [runF] at h
      by_cases hv : name ∈ st.visited
      · rw [if_pos hv] at h
        injection h with h2
        subst h2
        exact ⟨List.prefix_refl _, List.prefix_refl _⟩
      · rw [if_neg hv] at h
        rcases hc : lookupA c.chains name with _ | chain
        · simp only [hc] at h
          injection h with h2
          subst h2
          exact ⟨List.prefix_append _ _, List.prefix_refl _⟩
        · simp only [hc] at h
          have h1 := ih (Sum.inr chain) _ r h
          exact ⟨List.IsPrefix.trans (List.prefix_append _ _) h1.1, h1.2⟩
    | inr steps =>
      cases steps with
      | nil =>
        simp only [runF] at h
        injection h with h2
        subst h2
        exact ⟨List.prefix_refl _, List.prefix_refl _⟩
      | cons step rest =>
        simp only [runF] at h
        by_cases hc : (lookupA c.chains step).isSome
        · rw [if_pos hc] at h
          rcases hrc : runF o c f (Sum.inl step) st with _ | ⟨code, st1⟩
          · rw [hrc] at h
            simp at h
          · rw [hrc] at h
            replace h : (if code ≠ 0 then some (code, st1)
                else runF o c f (Sum.inr rest) st1) = some r := h
            have h1 := ih (Sum.inl step) st (code, st1) hrc
            by_cases hcode : code ≠ 0
            · rw [if_pos hcode] at h
              injection h with h2
              subst h2
              exact h1
            · rw [if_neg hcode] at h
              have h2 := ih (Sum.inr rest) st1 r h
              exact ⟨h1.1.trans h2.1, h1.2.trans h2.2⟩
        · rw [if_neg hc] at h
          rcases hr : resolveCommand c step with _ | cmd
          · simp only [hr] at h
            injection h with h2
            subst h2
            exact ⟨List.prefix_refl _, List.prefix_refl _⟩
          · simp only [hr] at h
            by_cases hcode : runShellCommand (o st.executed.length) ≠ 0
            · rw [if_pos hcode] at h
              injection h with h2
              subst h2
              exact ⟨List.prefix_refl _, List.prefix_append _ _⟩
            · rw [if_neg hcode] at h
              have h2 := ih (Sum.inr rest) (st.spawn cmd) r h
              exact ⟨h2.1, List.IsPrefix.trans (List.prefix_append _ _) h2.2⟩

/-- A runChain call that produced a result leaves its chain name in the
visited set: the shared Set is mutated, never restored on exit. -/
theorem runChain_mem_visited (o : Nat → SpawnOutcome) (c : ResolvedConfig)
    (fuel : Nat) (name : String) (st : ExecState) (r : Nat × ExecState)
    (h : runChain o c fuel name st = some r) : name ∈ r.2.visited := by
  cases fuel with
  | zero => simp [runChain, runF] at h
  | succ f =>
    unfold runChain at h
    simp only [runF] at h
    by_cases hv : name ∈ st.visited
    · rw [if_pos hv] at h
      injection h with h2
      subst h2
      exact hv
    · rw [if_neg hv] at h
      rcases hc : lookupA c.chains name with _ | chain
      · simp only [hc] at h
        injection h with h2
        subst h2
        simp [ExecState.addError]
      · simp only [hc] at h
        have h1 := (runF_mono o c f (Sum.inr chain) _ r h).1
        exact h1.subset (by simp)

/-- The run depends on the oracle only through the exit codes
runShellCommand extracts from it: two oracles whose outcomes map to
equal codes produce identical runs.  In particular a spawn failure is
indistinguishable from a child that exits 1. -/
theorem runF_oracle_congr (c : ResolvedConfig) (o1 o2 : Nat → SpawnOutcome)
    (hsh : ∀ n, runShellCommand (o1 n) = runShellCommand (o2 n)) :
    ∀ (fuel : Nat) (inp : Sum String (List String)) (st : ExecState),
      runF o1 c fuel inp st = runF o2 c fuel inp st := by
  intro fuel
  induction fuel with
  | zero => intro inp st; simp [runF]
  | succ f ih =>
    intro inp st
    cases inp with
    | inl name =>
      simp only [runF]
      by_cases hv : name ∈ st.visited
      · rw [if_pos hv, if_pos hv]
      · rw [if_neg hv, if_neg hv]
        rcases hc : lookupA c.chains name with _ | chain
        · rfl
        · exact ih (Sum.inr chain) _
    | inr steps =>
      cases steps with
      | nil => simp [runF]
      | cons step rest =>
        simp only [runF]
        by_cases hc : (lookupA c.chains step).isSome
        · rw [if_pos hc, if_pos hc, ih (Sum.inl step) st]
          rcases hrc : runF o2 c f (Sum.inl step) st with _ | ⟨code, st1⟩
          · rfl
          · show (if code ≠ 0 then some (code, st1) else runF o1 c f (Sum.inr rest) st1) =
              (if code ≠ 0 then some (code, st1) else runF o2 c f (Sum.inr rest) st1)
            by_cases hcode : code ≠ 0
            · rw [if_pos hcode, if_pos hcode]
            · rw [if_neg hcode, if_neg hcode]
              exact ih (Sum.inr rest) st1
        · rw [if_neg hc, if_neg hc]
          rcases hr : resolveCommand c step with _ | cmd
          · rfl
          · show (if runShellCommand (o1 st.executed.length) ≠ 0 then
                some (runShellCommand (o1 st.executed.length), st.spawn cmd)
              else runF o1 c f (Sum.inr rest) (st.spawn cmd)) =
              (if runShellCommand (o2 st.executed.length) ≠ 0 then
                some (runShellCommand (o2 st.executed.length), st.spawn cmd)
              else runF o2 c f (Sum.inr rest) (st.spawn cmd))
            rw [hsh st.executed.length]
            by_cases hcode : runShellCommand (o2 st.executed.length) ≠ 0
            · rw [if_pos hcode, if_pos hcode]
            · rw [if_neg hcode, if_neg hcode]
              exact ih (Sum.inr rest) (st.spawn cmd)

/-- Reading the trace just past a prefix that ends in a recorded command
yields that command. -/
theorem getElem?_of_concat_prefix {α : Type} {l1 l2 : List α} {a : α}
    (h : (l1 ++ [a]) <+: l2) : l2[l1.length]? = some a := by
  obtain ⟨t, ht⟩ := h
  subst ht
  rw [List.append_assoc, List.getElem?_append_right (Nat.le_refl _)]
  simp

/-- When a step resolves to a concrete command (not a chain), the command
recorded at the current trace position is exactly that command. -/
theorem runSteps_head_cmd (o : Nat → SpawnOutcome) (c : ResolvedConfig)
    (fuel : Nat) (step : String) (rest : List String) (st : ExecState)
    (cmd : CommandDef) (r : Nat × ExecState)
    (h1 : lookupA c.chains step = none) (h2 : resolveCommand c step = some cmd)
    (h3 : runSteps o c fuel (step :: rest) st = some r) :
    r.2.executed[st.executed.length]? = some cmd := by
  cases fuel with
  | zero => simp [runSteps, runF] at h3
  | succ f =>
    unfold runSteps at h3
    simp only [runF, h1, Option.isSome_none, Bool.false_eq_true, if_false, h2] at h3
    by_cases hcode : runShellCommand (o st.executed.length) ≠ 0
    · rw [if_pos hcode] at h3
      injection h3 with h4
      subst h4
      exact getElem?_of_concat_prefix (List.prefix_refl _)
    · rw [if_neg hcode] at h3
      have h4 := (runF_mono o c f (Sum.inr rest) (st.spawn cmd) r h3).2
      exact getElem?_of_concat_prefix h4

/-- Running a list of steps that all resolve to direct commands, under an
oracle making every one of them exit 0, succeeds with overall code 0 and
spawns exactly one child per step. -/
theorem runSteps_direct_zero (o : Nat → SpawnOutcome) (c : ResolvedConfig) :
    ∀ (steps : List String) (fuel : Nat) (st : ExecState),
      (∀ s ∈ steps, lookupA c.chains s = none ∧ (resolveCommand c s).isSome) →
      steps.length < fuel →
      (∀ i, i < steps.length → runShellCommand (o (st.executed.length + i)) = 0) →
      ∃ st1, runSteps o c fuel steps st = some (0, st1) ∧
        st1.executed.length = st.executed.length + steps.length := by
  intro steps
  induction steps with
  | nil =>
    intro fuel st _ hf _
    obtain ⟨f, rfl⟩ : ∃ f, fuel = f + 1 := ⟨fuel - 1, by omega⟩
    exact ⟨st, by simp [runSteps, runF], by simp⟩
  | cons step rest ih =>
    intro fuel st hdir hf hz
    obtain ⟨f, rfl⟩ : ∃ f, fuel = f + 1 := ⟨fuel - 1, by omega⟩
    obtain ⟨hcs, hcmdS⟩ := hdir step (List.mem_cons_self _ _)
    obtain ⟨cmd, hcmd⟩ := Option.isSome_iff_exists.mp hcmdS
    have hz0 : runShellCommand (o st.executed.length) = 0 := by
      have := hz 0 (by simp)
      simpa using this
    have hexe : (st.spawn cmd).executed.length = st.executed.length + 1 := by
      simp [ExecState.spawn]
    have hstep : runSteps o c (f + 1) (step :: rest) st = runSteps o c f rest (st.spawn cmd) := by
      unfold runSteps
      simp only [runF, hcs, Option.isSome_none, Bool.false_eq_true, if_false, hcmd]
      rw [if_neg (by simp [hz0])]
    obtain ⟨st1, hrun, hlen⟩ := ih f (st.spawn cmd)
      (fun s hs => hdir s (List.mem_cons_of_mem _ hs))
      (by simp only [List.length_cons] at hf; omega)
      (fun i hi => by
        rw [hexe, show st.executed.length + 1 + i = st.executed.length + (i + 1) by omega]
        exact hz (i + 1) (by simp only [List.length_cons]; omega))
    refine ⟨st1, ?_, ?_⟩
    · rw [hstep]; exact hrun
    · rw [hlen, hexe]
      simp only [List.length_cons]
      omega

/-- Fail-fast: running a list of direct-command steps whose first k
children exit 0 and whose child number k exits non-zero stops right
there: exactly k + 1 children are spawned and the non-zero code is
returned unchanged. -/
theorem runSteps_direct_fail (o : Nat → SpawnOutcome) (c : ResolvedConfig) :
    ∀ (steps : List String) (fuel : Nat) (st : ExecState) (k : Nat),
      (∀ s ∈ steps, lookupA c.chains s = none ∧ (resolveCommand c s).isSome) →
      k < steps.length →
      steps.length < fuel →
      (∀ i, i < k → runShellCommand (o (st.executed.length + i)) = 0) →
      runShellCommand (o (st.executed.length + k)) ≠ 0 →
      ∃ st1, runSteps o c fuel steps st =
          some (runShellCommand (o (st.executed.length + k)), st1) ∧
        st1.executed.length = st.executed.length + k + 1 := by
  intro steps
  induction steps with
  | nil => intro fuel st k _ hk _ _ _; simp at hk
  | cons step rest ih =>
    intro fuel st k hdir hk hf hz hnz
    obtain ⟨f, rfl⟩ : ∃ f, fuel = f + 1 := ⟨fuel - 1, by omega⟩
    obtain ⟨hcs, hcmdS⟩ := hdir step (List.mem_cons_self _ _)
    obtain ⟨cmd, hcmd⟩ := Option.isSome_iff_exists.mp hcmdS
    cases k with
    | zero =>
      have hnz0 : runShellCommand (o st.executed.length) ≠ 0 := by simpa using hnz
      refine ⟨st.spawn cmd, ?_, by simp [ExecState.spawn]⟩
      unfold runSteps
      simp only [runF, hcs, Option.isSome_none, Bool.false_eq_true, if_false, hcmd]
      rw [if_pos hnz0]
      simp
    | succ k1 =>
      have hz0 : runShellCommand (o st.executed.length) = 0 := by
        have := hz 0 (by omega)
        simpa using this
      have hexe : (st.spawn cmd).executed.length = st.executed.length + 1 := by
        simp [ExecState.spawn]
      have hstep : runSteps o c (f + 1) (step :: rest) st = runSteps o c f rest (st.spawn cmd) := by
        unfold runSteps
        simp only [runF, hcs, Option.isSome_none, Bool.false_eq_true, if_false, hcmd]
        rw [if_neg (by simp [hz0])]
      obtain ⟨st1, hrun, hlen⟩ := ih f (st.spawn cmd) k1
        (fun s hs => hdir s (List.mem_cons_of_mem _ hs))
        (by simp only [List.length_cons] at hk; omega)
        (by simp only [List.length_cons] at hf; omega)
        (fun i hi => by
          rw [hexe, show st.executed.length + 1 + i = st.executed.length + (i + 1) by omega]
          exact hz (i + 1) (by omega))
        (by
          rw [hexe, show st.executed.length + 1 + k1 = st.executed.length + (k1 + 1) by omega]
          exact hnz)
      have harg : (st.spawn cmd).executed.length + k1 = st.executed.length + (k1 + 1) := by
        rw [hexe]; omega
      refine ⟨st1, ?_, ?_⟩
      · rw [hstep, hrun, harg]
      · rw [hlen, hexe]; omega

/-- C5: Config resolution never fails: for a missing configuration file or
one whose contents are unparsable JSON (both reach loadConfig as the none
input), the result is the compiled-in defaults — srcDir "./src", testDir
"./test", an empty commands map, and chains containing exactly validate
mapped to [format, lint, typecheck, test, build]. -/
theorem claimC5_config_defaults :
    loadConfig none =
      { srcDir := "./src", testDir := "./test", commands := []
        chains := [("validate", ["format", "lint", "typecheck", "test", "build"])] } := by
  rfl

/-- C9: Round-trip of the default configuration: resolving the object
written by createConfig yields exactly what was written — the resolved
validate chain equals the written validateChain, the resolved srcDir
equals the written "./src", and the resolved commands map is empty. -/
theorem claimC9_roundtrip :
    lookupA (loadConfig (some defaultConfig)).chains "validate" = defaultConfig.validateChain ∧
    (loadConfig (some defaultConfig)).srcDir = "./src" ∧
    (loadConfig (some defaultConfig)).commands = [] := by
  decide

/-- C10: For every user configuration input, the resolved chains map
contains the key validate: the built-in default seeds it and the merge
steps only add or replace entries, never remove them. -/
theorem claimC10_validate_always_present :
    ∀ parsed : Option TsBuildsConfig,
      (lookupA (loadConfig parsed).chains "validate").isSome := by
  intro parsed
  have hbase : (lookupA defaultChains "validate").isSome := by decide
  cases parsed with
  | none => decide
  | some uc =>
    obtain ⟨src, test, cmds, chs, vch⟩ := uc
    cases vch with
    | none =>
      cases chs with
      | none =>
        simp only [loadConfig, Option.getD_some]
        exact hbase
      | some cs =>
        simp only [loadConfig, Option.getD_some]
        exact isSome_lookupA_foldl_setA cs "validate" defaultChains hbase
    | some vc =>
      cases chs with
      | none =>
        simp only [loadConfig, Option.getD_some]
        rw [lookupA_setA_self]
        rfl
      | some cs =>
        simp only [loadConfig, Option.getD_some]
        apply isSome_lookupA_foldl_setA
        rw [lookupA_setA_self]
        rfl

/-- C6: A legacy validateChain field is installed as the validate chain
before the general chains mapping is merged: when both validateChain and
a chains.validate entry are present (chains being a parsed JSON object,
so with pairwise distinct keys) the resolved validate chain equals the
chains.validate entry; when only validateChain is present — chains
absent, or present without a validate key — the resolved validate chain
equals validateChain. -/
theorem claimC6_validateChain_precedence :
    (∀ (src test : Option String) (cmds : Option (List (String × CommandValue)))
        (vc : List String) (cs : List (String × List String)) (v : List String),
      (cs.map Prod.fst).Nodup →
      lookupA cs "validate" = some v →
      lookupA (loadConfig (some ⟨src, test, cmds, some cs, some vc⟩)).chains "validate" =
        some v)
    ∧ (∀ (src test : Option String) (cmds : Option (List (String × CommandValue)))
        (vc : List String),
      lookupA (loadConfig (some ⟨src, test, cmds, none, some vc⟩)).chains "validate" =
        some vc)
    ∧ (∀ (src test : Option String) (cmds : Option (List (String × CommandValue)))
        (vc : List String) (cs : List (String × List String)),
      lookupA cs "validate" = none →
      lookupA (loadConfig (some ⟨src, test, cmds, some cs, some vc⟩)).chains "validate" =
        some vc) := by
  refine ⟨?_, ?_, ?_⟩
  · intro src test cmds vc cs v hnd hv
    simp only [loadConfig, Option.getD_some]
    exact lookupA_foldl_setA_some cs "validate" v _ hnd hv
  · intro src test cmds vc
    simp only [loadConfig, Option.getD_some]
    exact lookupA_setA_self _ _ _
  · intro src test cmds vc cs hcs
    simp only [loadConfig, Option.getD_some]
    rw [lookupA_foldl_setA_none _ _ _ hcs]
    exact lookupA_setA_self _ _ _

/-- C6 witness: with validateChain ["a"] and chains.validate ["b"] both
present, the resolved validate chain is ["b"]. -/
theorem claimC6_witness :
    lookupA (loadConfig (some ⟨none, none, none, some [("validate", ["b"])], some ["a"]⟩)).chains
      "validate" = some ["b"] :=
  claimC6_validateChain_precedence.1 none none none ["a"] [("validate", ["b"])] ["b"]
    (by decide) (by decide)

/-- C1 (amended): the visited set is per top-level invocation but is one
shared, mutated set threaded through every recursive call: a chain name
stays in it after the nested chain returns, and any second entry of a
name already in it — a genuine cycle, a repeated reference from a
sibling branch, or a duplicate step — immediately reports CircularChain
and returns 1 with nothing further executed. -/
theorem claimC1_amended_visited_shared :
    (∀ (o : Nat → SpawnOutcome) (c : ResolvedConfig) (fuel : Nat) (name : String)
        (st : ExecState),
      name ∈ st.visited →
      runChain o c (fuel + 1) name st = some (1, st.addError (RunError.circularChain name)))
    ∧ (∀ (o : Nat → SpawnOutcome) (c : ResolvedConfig) (fuel : Nat) (name : String)
        (st : ExecState) (r : Nat × ExecState),
      runChain o c fuel name st = some r → name ∈ r.2.visited) := by
  constructor
  · intro o c fuel name st hv
    unfold runChain
    simp only [runF]
    rw [if_pos hv]
  · exact fun o c fuel name st r h => runChain_mem_visited o c fuel name st r h

/-- C1 (counterexample): cfgDup forms no genuine cycle — main references
chain a twice and a references only the builtin format — yet running
main reports a CircularChain error on the second reference of a and
exits 1, refuting the claim that only genuine cycles trigger it. -/
theorem claimC1_counterexample :
    hasGenuineCycle cfgDup = false ∧
    runChainTop oracleOk cfgDup "main" =
      some (1, { visited := ["main", "a"]
                 executed := [{ run := "prettier --write .", cwd := none }]
                 errors := [RunError.circularChain "a"] }) := by
  decide

/-- C1 witness: re-entering a chain name already in the visited set
returns 1 with a CircularChain diagnostic. -/
theorem claimC1_witness :
    "z" ∈ ({ visited := ["z"], executed := [], errors := [] } : ExecState).visited ∧
    runChain oracleOk cfgDup 1 "z" { visited := ["z"], executed := [], errors := [] } =
      some (1, ExecState.addError { visited := ["z"], executed := [], errors := [] }
        (RunError.circularChain "z")) :=
  ⟨by decide, claimC1_amended_visited_shared.1 oracleOk cfgDup 0 "z"
    { visited := ["z"], executed := [], errors := [] } (by decide)⟩

/-- C2 (amended): runChain resolves steps lazily during sequential
execution rather than pre-flattening the chain: a step that resolves to
neither chain, user command nor builtin stops the run at that step with
an unknown-step diagnostic and exit code 1, executing nothing further —
steps before the offending one have already run.  A cycle is likewise
detected only when the offending reference is reached, so when it
precedes any command — as in the spec's A to B to A example — zero
commands are executed. -/
theorem claimC2_amended_lazy_detection :
    (∀ (o : Nat → SpawnOutcome) (c : ResolvedConfig) (fuel : Nat) (step : String)
        (rest : List String) (st : ExecState),
      lookupA c.chains step = none →
      resolveCommand c step = none →
      runSteps o c (fuel + 1) (step :: rest) st =
        some (1, st.addError (RunError.unknownStep step)))
    ∧ runChainTop oracleOk cfgAB "A" =
        some (1, { visited := ["A", "B"], executed := []
                   errors := [RunError.circularChain "A"] }) := by
  constructor
  · intro o c fuel step rest st h1 h2
    unfold runSteps
    simp only [runF, h1, Option.isSome_none, Bool.false_eq_true, if_false, h2]
  · decide

/-- C2 (counterexample): in cfgUnknown the chain main is [format, nope]
with nope unknown everywhere; the claim demands exit 1 with zero child
commands executed, but the run spawns one child (format) before the
unknown step is detected. -/
theorem claimC2_counterexample :
    runChainTop oracleOk cfgUnknown "main" =
      some (1, { visited := ["main"]
                 executed := [{ run := "prettier --write .", cwd := none }]
                 errors := [RunError.unknownStep "nope"] }) ∧
    ({ visited := ["main"]
       executed := [{ run := "prettier --write .", cwd := none }]
       errors := [RunError.unknownStep "nope"] } : ExecState).executed.length ≠ 0 := by
  decide

/-- C2 witness: an unresolvable step yields exit 1 with an unknown-step
diagnostic and no further execution. -/
theorem claimC2_witness :
    lookupA cfgUnknown.chains "nope" = none ∧
    resolveCommand cfgUnknown "nope" = none ∧
    runSteps oracleOk cfgUnknown 1 ["nope"] ExecState.start =
      some (1, ExecState.addError ExecState.start (RunError.unknownStep "nope")) :=
  ⟨by decide, by decide,
    claimC2_amended_lazy_detection.1 oracleOk cfgUnknown 0 "nope" [] ExecState.start
      (by decide) (by decide)⟩

/-- C3: Fail-fast sequential execution: for a chain whose steps all
resolve to direct commands, a step exiting non-zero stops the run right
there — exactly the failing child and its predecessors are spawned and
its exit code is returned unchanged — and if every child exits 0 the
chain returns 0 after spawning one child per step.  Concretely, with a
three-step chain whose first child exits 0 and second exits 3, exactly
two children are spawned and the result is 3. -/
theorem claimC3_fail_fast :
    (∀ (o : Nat → SpawnOutcome) (c : ResolvedConfig) (fuel : Nat) (name : String)
        (st : ExecState) (steps : List String) (k : Nat),
      name ∉ st.visited →
      lookupA c.chains name = some steps →
      (∀ s ∈ steps, lookupA c.chains s = none ∧ (resolveCommand c s).isSome) →
      steps.length + 1 < fuel →
      k < steps.length →
      (∀ i, i < k → runShellCommand (o (st.executed.length + i)) = 0) →
      runShellCommand (o (st.executed.length + k)) ≠ 0 →
      ∃ st1, runChain o c fuel name st =
          some (runShellCommand (o (st.executed.length + k)), st1) ∧
        st1.executed.length = st.executed.length + k + 1)
    ∧ (∀ (o : Nat → SpawnOutcome) (c : ResolvedConfig) (fuel : Nat) (name : String)
        (st : ExecState) (steps : List String),
      name ∉ st.visited →
      lookupA c.chains name = some steps →
      (∀ s ∈ steps, lookupA c.chains s = none ∧ (resolveCommand c s).isSome) →
      steps.length + 1 < fuel →
      (∀ i, i < steps.length → runShellCommand (o (st.executed.length + i)) = 0) →
      ∃ st1, runChain o c fuel name st = some (0, st1) ∧
        st1.executed.length = st.executed.length + steps.length)
    ∧ runChainTop oracleThird cfgThree "main" =
        some (3, { visited := ["main"]
                   executed := [{ run := "prettier --write .", cwd := none },
                     { run := "eslint --fix ./src", cwd := none }]
                   errors := [] }) := by
  refine ⟨?_, ?_, by decide⟩
  · intro o c fuel name st steps k hv hchain hdir hf hk hz hnz
    obtain ⟨f, rfl⟩ : ∃ f, fuel = f + 1 := ⟨fuel - 1, by omega⟩
    unfold runChain
    simp only [runF]
    rw [if_neg hv]
    simp only [hchain]
    exact runSteps_direct_fail o c steps f { st with visited := st.visited ++ [name] } k
      hdir hk (by omega) hz hnz
  · intro o c fuel name st steps hv hchain hdir hf hz
    obtain ⟨f, rfl⟩ : ∃ f, fuel = f + 1 := ⟨fuel - 1, by omega⟩
    unfold runChain
    simp only [runF]
    rw [if_neg hv]
    simp only [hchain]
    exact runSteps_direct_zero o c steps f { st with visited := st.visited ++ [name] }
      hdir (by omega) hz

/-- C3 witness: in cfgThree under oracleThird the second child exits 3,
so the chain stops after exactly two spawns and returns 3. -/
theorem claimC3_witness :
    ∃ st1, runChain oracleThird cfgThree 6 "main" ExecState.start =
        some (runShellCommand (oracleThird (ExecState.start.executed.length + 1)), st1) ∧
      st1.executed.length = ExecState.start.executed.length + 1 + 1 :=
  claimC3_fail_fast.1 oracleThird cfgThree 6 "main" ExecState.start
    ["format", "lint", "typecheck"] 1 (by decide) (by decide) (by decide) (by decide)
    (by decide) (by decide) (by decide)

/-- C4: Step resolution precedence during chain execution: a name present
in chains is entered as a nested chain (it ends up in the visited set)
even when commands or builtins also define it; otherwise a name present
in the user commands map executes that command (even when a builtin of
the same name exists); otherwise a builtin name executes the builtin;
otherwise the run stops with an unknown-step diagnostic and exit code 1.
-/
theorem claimC4_resolution_precedence :
    (∀ (o : Nat → SpawnOutcome) (c : ResolvedConfig) (fuel : Nat) (step : String)
        (rest : List String) (st : ExecState) (ss : List String) (r : Nat × ExecState),
      lookupA c.chains step = some ss →
      runSteps o c fuel (step :: rest) st = some r →
      step ∈ r.2.visited)
    ∧ (∀ (o : Nat → SpawnOutcome) (c : ResolvedConfig) (fuel : Nat) (step : String)
        (rest : List String) (st : ExecState) (cmd : CommandDef) (r : Nat × ExecState),
      lookupA c.chains step = none →
      lookupA c.commands step = some cmd →
      runSteps o c fuel (step :: rest) st = some r →
      r.2.executed[st.executed.length]? = some cmd)
    ∧ (∀ (o : Nat → SpawnOutcome) (c : ResolvedConfig) (fuel : Nat) (step : String)
        (rest : List String) (st : ExecState) (cmd : CommandDef) (r : Nat × ExecState),
      lookupA c.chains step = none →
      lookupA c.commands step = none →
      lookupA (getBuiltinCommands c) step = some cmd →
      runSteps o c fuel (step :: rest) st = some r →
      r.2.executed[st.executed.length]? = some cmd)
    ∧ (∀ (o : Nat → SpawnOutcome) (c : ResolvedConfig) (fuel : Nat) (step : String)
        (rest : List String) (st : ExecState),
      lookupA c.chains step = none →
      resolveCommand c step = none →
      runSteps o c (fuel + 1) (step :: rest) st =
        some (1, st.addError (RunError.unknownStep step))) := by
  refine ⟨?_, ?_, ?_, ?_⟩
  · intro o c fuel step rest st ss r h1 h2
    cases fuel with
    | zero => simp [runSteps, runF] at h2
    | succ f =>
      unfold runSteps at h2
      simp only [runF] at h2
      rw [if_pos (by simp [h1])] at h2
      rcases hrc : runF o c f (Sum.inl step) st with _ | ⟨code, st1⟩
      · rw [hrc] at h2
        simp at h2
      · rw [hrc] at h2
        replace h2 : (if code ≠ 0 then some (code, st1)
            else runF o c f (Sum.inr rest) st1) = some r := h2
        have hmem : step ∈ st1.visited :=
          runChain_mem_visited o c f step st (code, st1) hrc
        by_cases hcode : code ≠ 0
        · rw [if_pos hcode] at h2
          injection h2 with h3
          subst h3
          exact hmem
        · rw [if_neg hcode] at h2
          exact ((runF_mono o c f (Sum.inr rest) st1 r h2).1).subset hmem
  · intro o c fuel step rest st cmd r h1 h2 h3
    have hres : resolveCommand c step = some cmd := by
      simp [resolveCommand, h2]
    exact runSteps_head_cmd o c fuel step rest st cmd r h1 hres h3
  · intro o c fuel step rest st cmd r h1 h2 h3 h4
    have hres : resolveCommand c step = some cmd := by
      simp [resolveCommand, h2, h3]
    exact runSteps_head_cmd o c fuel step rest st cmd r h1 hres h4
  · intro o c fuel step rest st h1 h2
    unfold runSteps
    simp only [runF, h1, Option.isSome_none, Bool.false_eq_true, if_false, h2]

/-- C4 witness: a user command named lint shadows the builtin lint: the
child spawned for the step is the user command. -/
theorem claimC4_witness :
    ((0, { visited := [], executed := [{ run := "custom-lint", cwd := none }]
           errors := [] }) : Nat × ExecState).2.executed[ExecState.start.executed.length]? =
      some { run := "custom-lint", cwd := none } :=
  claimC4_resolution_precedence.2.1 oracleOk cfgUserLint 2 "lint" [] ExecState.start
    { run := "custom-lint", cwd := none }
    (0, { visited := [], executed := [{ run := "custom-lint", cwd := none }], errors := [] })
    (by decide) (by decide) (by decide)

/-- C7 (amended): the builtin registry defines exactly the fourteen names
in builtinNames — the thirteen the spec lists plus ts-types — and no
other name resolves against builtins; builtins remain the
lowest-precedence fallback: a step found in neither chains nor commands
but in builtins executes the builtin command. -/
theorem claimC7_amended_builtin_domain :
    (∀ (c : ResolvedConfig) (name : String),
      (lookupA (getBuiltinCommands c) name).isSome ↔ name ∈ builtinNames)
    ∧ (∀ (o : Nat → SpawnOutcome) (c : ResolvedConfig) (fuel : Nat) (step : String)
        (rest : List String) (st : ExecState) (cmd : CommandDef) (r : Nat × ExecState),
      lookupA c.chains step = none →
      lookupA c.commands step = none →
      lookupA (getBuiltinCommands c) step = some cmd →
      runSteps o c fuel (step :: rest) st = some r →
      r.2.executed[st.executed.length]? = some cmd) := by
  constructor
  · intro c name
    constructor
    · intro h
      by_contra hmem
      simp only [builtinNames, List.mem_cons, List.not_mem_nil, or_false, not_or] at hmem
      obtain ⟨n1, n2, n3, n4, n5, n6, n7, n8, n9, n10, n11, n12, n13, n14⟩ := hmem
      simp only [getBuiltinCommands, lookupA] at h
      rw [if_neg (fun e => n1 e.symm), if_neg (fun e => n2 e.symm),
        if_neg (fun e => n3 e.symm), if_neg (fun e => n4 e.symm),
        if_neg (fun e => n5 e.symm), if_neg (fun e => n6 e.symm),
        if_neg (fun e => n7 e.symm), if_neg (fun e => n8 e.symm),
        if_neg (fun e => n9 e.symm), if_neg (fun e => n10 e.symm),
        if_neg (fun e => n11 e.symm), if_neg (fun e => n12 e.symm),
        if_neg (fun e => n13 e.symm), if_neg (fun e => n14 e.symm)] at h
      exact absurd h (by decide)
    · intro h
      simp only [builtinNames, List.mem_cons, List.not_mem_nil, or_false] at h
      rcases h with rfl | rfl | rfl | rfl | rfl | rfl | rfl | rfl | rfl | rfl | rfl | rfl
        | rfl | rfl <;> simp [getBuiltinCommands, lookupA]
  · intro o c fuel step rest st cmd r h1 h2 h3 h4
    have hres : resolveCommand c step = some cmd := by
      simp [resolveCommand, h2, h3]
    exact runSteps_head_cmd o c fuel step rest st cmd r h1 hres h4

/-- C7 (counterexample): ts-types resolves against builtins although it
is not one of the thirteen names the claim declares to be the whole
domain. -/
theorem claimC7_counterexample :
    (lookupA (getBuiltinCommands (loadConfig none)) "ts-types").isSome = true ∧
    "ts-types" ∉ ["format", "format:check", "lint", "lint:check", "typecheck", "test",
      "test:watch", "test:coverage", "test:ui", "build", "build:watch", "dev",
      "compile"] := by
  decide

/-- C7 witness: the step compile, absent from chains and commands,
executes the builtin tsc command. -/
theorem claimC7_witness :
    ((0, { visited := [], executed := [{ run := "tsc", cwd := none }]
           errors := [] }) : Nat × ExecState).2.executed[ExecState.start.executed.length]? =
      some { run := "tsc", cwd := none } :=
  claimC7_amended_builtin_domain.2 oracleOk (loadConfig none) 2 "compile" [] ExecState.start
    { run := "tsc", cwd := none }
    (0, { visited := [], executed := [{ run := "tsc", cwd := none }], errors := [] })
    (by decide) (by decide) (by decide) (by decide)

/-- C8: the process runner resolves to the child's exit code on a normal
close (a null code, e.g. kill by signal, maps to 1) and resolves to 1
when the child could not be spawned at all; the spawn-failure case is a
normal return of the total embedded function, never a thrown failure,
and a chain run treats it exactly like a step failing with code 1: two
oracles whose outcomes map to equal codes produce identical runs. -/
theorem claimC8_spawn_failure :
    (∀ msg : String, runShellCommand (SpawnOutcome.failed msg) = 1)
    ∧ runShellCommand (SpawnOutcome.closed none) = 1
    ∧ (∀ code : Nat, runShellCommand (SpawnOutcome.closed (some code)) = code)
    ∧ (∀ (c : ResolvedConfig) (o1 o2 : Nat → SpawnOutcome),
      (∀ n, runShellCommand (o1 n) = runShellCommand (o2 n)) →
      ∀ (fuel : Nat) (name : String) (st : ExecState),
        runChain o1 c fuel name st = runChain o2 c fuel name st) := by
  refine ⟨fun msg => rfl, rfl, fun code => rfl, ?_⟩
  intro c o1 o2 hsh fuel name st
  unfold runChain
  exact runF_oracle_congr c o1 o2 hsh fuel (Sum.inl name) st

/-- C8 witness: an oracle under which every spawn fails and an oracle
under which every child exits 1 give identical chain runs. -/
theorem claimC8_witness :
    (∀ n, runShellCommand (oracleFail n) = runShellCommand (oracleOne n)) ∧
    runChain oracleFail cfgThree 5 "main" ExecState.start =
      runChain oracleOne cfgThree 5 "main" ExecState.start :=
  ⟨fun _ => rfl,
    claimC8_spawn_failure.2.2.2 cfgThree oracleFail oracleOne (fun _ => rfl)
      5 "main" ExecState.start⟩

end TsBuilds
